import Mathlib

/-!
Verification of the katori GDB/MI adapter core (gdbadapter crate).

The definitions below are a shallow embedding of the Rust sources:
  - types.rs        : the MI value model and record types
  - parser.rs       : the line parser for GDB/MI output
  - communication.rs: token routing and the send path (as pure state passing)
  - lib.rs          : the adapter facade (send_command, stop_session, reader)
  - commands.rs     : result decoders for break-list and stack-list-frames
  - events.rs       : the execution-state handler for async records

Rust HashMap values are modelled as association lists with replace-on-insert
and first-match lookup; u32 / i32 string parsing is modelled with explicit
range checks; the recursive-descent value parser is modelled with a fuel
parameter (the Rust loops always consume input, so any fuel larger than the
input length behaves identically).
-/

namespace Katori

/-! types.rs: the MI value model -/

inductive Value where
  | str : String → Value
  | list : List Value → Value
  | tuple : List (String × Value) → Value


def Value.as_string : Value → Option String
  | .str s => some s
  | _ => none

def Value.as_list : Value → Option (List Value)
  | .list l => some l
  | _ => none

def Value.as_tuple : Value → Option (List (String × Value))
  | .tuple t => some t
  | _ => none

/-- Lookup in an association list, modelling HashMap get. -/
def alGet (m : List (String × Value)) (k : String) : Option Value :=
  match m with
  | [] => none
  | (k', v) :: rest => if k' = k then some v else alGet rest k

/-- Insert in an association list, modelling HashMap insert (replace). -/
def alInsert (m : List (String × Value)) (k : String) (v : Value) :
    List (String × Value) :=
  match m with
  | [] => [(k, v)]
  | (k', v') :: rest =>
      if k' = k then (k, v) :: rest else (k', v') :: alInsert rest k v

inductive ResultClass where
  | done | running | connected | error | exit
deriving DecidableEq, Repr

structure GdbResult where
  token : Option Nat
  cls : ResultClass
  results : List (String × Value)


inductive AsyncClass where
  | running | stopped
  | threadGroupAdded | threadGroupRemoved | threadGroupStarted | threadGroupExited
  | threadCreated | threadExited | threadSelected
  | libraryLoaded | libraryUnloaded
  | traceframeChanged | tsvCreated | tsvDeleted | tsvModified
  | breakpointCreated | breakpointModified | breakpointDeleted
  | recordStarted | recordStopped | cmdParamChanged | memoryChanged
deriving DecidableEq, Repr

structure AsyncRecord where
  token : Option Nat
  cls : AsyncClass
  results : List (String × Value)


inductive StreamType where
  | console | target | log
deriving DecidableEq, Repr

structure StreamRecord where
  stream_type : StreamType
  content : String


inductive GdbOutput where
  | result : GdbResult → GdbOutput
  | async : AsyncRecord → GdbOutput
  | stream : StreamRecord → GdbOutput


inductive GdbEvent where
  | result : GdbResult → GdbEvent
  | async : AsyncRecord → GdbEvent
  | stream : StreamRecord → GdbEvent


/-! parser.rs -/

/-- Character class used by parse_identifier in parser.rs. -/
def miIdentChar (c : Char) : Bool :=
  c.isAlphanum || c = '_' || c = '-'

/-- The quoted-string loop of parse_value in parser.rs: consumes until an
unescaped closing quote or end of input, decoding escapes; returns the
accumulated content and the unconsumed remainder. -/
def stringBody : List Char → Bool → String → String × List Char
  | [], _, acc => (acc, [])
  | c :: rest, true, acc =>
      if c = 'n' then stringBody rest false (acc.push '\n')
      else if c = 't' then stringBody rest false (acc.push '\t')
      else if c = 'r' then stringBody rest false (acc.push '\r')
      else if c = '\\' then stringBody rest false (acc.push '\\')
      else if c = '"' then stringBody rest false (acc.push '"')
      else stringBody rest false ((acc.push '\\').push c)
  | c :: rest, false, acc =>
      if c = '\\' then stringBody rest true acc
      else if c = '"' then (acc, rest)
      else stringBody rest false (acc.push c)

/-- parse_identifier in parser.rs. -/
def parse_identifier (cs : List Char) : Except String (String × List Char) :=
  let ident := cs.takeWhile miIdentChar
  if ident.isEmpty then .error "Empty identifier"
  else .ok (String.mk ident, cs.dropWhile miIdentChar)

mutual

/-- parse_value in parser.rs (fueled; every Rust loop iteration consumes at
least one character, so fuel larger than the input length is never
exhausted). -/
def parse_value : Nat → List Char → Except String (Value × List Char)
  | fuel, cs =>
    match cs with
    | '"' :: rest =>
        let (s, rem) := stringBody rest false ""
        .ok (.str s, rem)
    | '[' :: rest =>
        match fuel with
        | 0 => .error "Out of fuel"
        | fuel + 1 => parseListItems fuel rest []
    | '{' :: rest =>
        match fuel with
        | 0 => .error "Out of fuel"
        | fuel + 1 => parseTupleItems fuel rest []
    | _ =>
        let bare := cs.takeWhile fun c =>
          ¬ (c = ',' ∨ c = ']' ∨ c = '}' ∨ c = ' ')
        if bare.isEmpty then .error "Empty value"
        else .ok (.str (String.mk bare), cs.dropWhile fun c =>
          ¬ (c = ',' ∨ c = ']' ∨ c = '}' ∨ c = ' '))

/-- The list loop of parse_value in parser.rs. -/
def parseListItems : Nat → List Char → List Value →
    Except String (Value × List Char)
  | _, [] , _ => .error "Expected closing bracket"
  | fuel, c :: rest, acc =>
    if c = ']' then .ok (.list acc, rest)
    else
      match fuel with
      | 0 => .error "Out of fuel"
      | fuel + 1 => do
        let (v, rem) ← parse_value fuel (c :: rest)
        let rem2 := match rem with
          | ',' :: r => r
          | _ => rem
        parseListItems fuel rem2 (acc ++ [v])

/-- The tuple loop of parse_value in parser.rs. -/
def parseTupleItems : Nat → List Char → List (String × Value) →
    Except String (Value × List Char)
  | _, [], _ => .error "Expected closing brace"
  | fuel, c :: rest, acc =>
    if c = '}' then .ok (.tuple acc, rest)
    else
      match fuel with
      | 0 => .error "Out of fuel"
      | fuel + 1 => do
        let (key, rem) ← parse_identifier (c :: rest)
        match rem with
        | '=' :: rem2 => do
          let (v, rem3) ← parse_value fuel rem2
          let rem4 := match rem3 with
            | ',' :: r => r
            | _ => rem3
          parseTupleItems fuel rem4 (alInsert acc key v)
        | _ => .error "Expected eq in tuple"

end

/-- The loop of parse_results in parser.rs. -/
def parseResultsLoop : Nat → List Char → List (String × Value) →
    Except String (List (String × Value))
  | fuel, cs, acc =>
    let cs1 := cs.dropWhile (· = ' ')
    match cs1 with
    | [] => .ok acc
    | c :: rest =>
      match fuel with
      | 0 => .error "Out of fuel"
      | fuel + 1 => do
        let (key, rem) ← parse_identifier (c :: rest)
        match rem with
        | '=' :: rem2 => do
          let (v, rem3) ← parse_value fuel rem2
          let rem4 := match rem3 with
            | ',' :: r => r
            | _ => rem3
          parseResultsLoop fuel rem4 (alInsert acc key v)
        | _ => .error "Expected eq after key"

/-- parse_results in parser.rs. -/
def parse_results (cs : List Char) : Except String (List (String × Value)) :=
  parseResultsLoop (cs.length + 1) cs []

/-- The escape-decoding loop of parse_c_string in parser.rs. -/
def cDecode : List Char → String → String
  | [], acc => acc
  | '\\' :: rest, acc =>
      match rest with
      | [] => acc.push '\\'
      | c :: rest' =>
        if c = 'n' then cDecode rest' (acc.push '\n')
        else if c = 't' then cDecode rest' (acc.push '\t')
        else if c = 'r' then cDecode rest' (acc.push '\r')
        else if c = '\\' then cDecode rest' (acc.push '\\')
        else if c = '"' then cDecode rest' (acc.push '"')
        else cDecode rest' ((acc.push '\\').push c)
  | c :: rest, acc => cDecode rest (acc.push c)

/-- parse_c_string in parser.rs. -/
def parse_c_string (cs : List Char) : Option String :=
  if cs.length < 2 then none
  else
    match cs with
    | '"' :: rest =>
        if rest.getLast? = some '"' then some (cDecode rest.dropLast "")
        else none
    | _ => none

/-- parse_stream_record in parser.rs. -/
def parse_stream_record (cs : List Char) : Option StreamRecord :=
  if cs.length < 2 then none
  else
    match cs with
    | [] => none
    | c :: rest =>
      if c = '~' then
        some ⟨.console, (parse_c_string rest).getD (String.mk rest)⟩
      else if c = '@' then
        some ⟨.target, (parse_c_string rest).getD (String.mk rest)⟩
      else if c = '&' then
        some ⟨.log, (parse_c_string rest).getD (String.mk rest)⟩
      else none

/-- Numeric value of a run of decimal digits. -/
def digitsVal (ds : List Char) : Nat :=
  ds.foldl (fun n c => 10 * n + (c.toNat - '0'.toNat)) 0

def resultClassOfString (s : String) : Option ResultClass :=
  if s = "done" then some .done
  else if s = "running" then some .running
  else if s = "connected" then some .connected
  else if s = "error" then some .error
  else if s = "exit" then some .exit
  else none

def asyncClassOfString (s : String) : Option AsyncClass :=
  if s = "running" then some .running
  else if s = "stopped" then some .stopped
  else if s = "thread-group-added" then some .threadGroupAdded
  else if s = "thread-group-removed" then some .threadGroupRemoved
  else if s = "thread-group-started" then some .threadGroupStarted
  else if s = "thread-group-exited" then some .threadGroupExited
  else if s = "thread-created" then some .threadCreated
  else if s = "thread-exited" then some .threadExited
  else if s = "thread-selected" then some .threadSelected
  else if s = "library-loaded" then some .libraryLoaded
  else if s = "library-unloaded" then some .libraryUnloaded
  else if s = "traceframe-changed" then some .traceframeChanged
  else if s = "tsv-created" then some .tsvCreated
  else if s = "tsv-deleted" then some .tsvDeleted
  else if s = "tsv-modified" then some .tsvModified
  else if s = "breakpoint-created" then some .breakpointCreated
  else if s = "breakpoint-modified" then some .breakpointModified
  else if s = "breakpoint-deleted" then some .breakpointDeleted
  else if s = "record-started" then some .recordStarted
  else if s = "record-stopped" then some .recordStopped
  else if s = "cmd-param-changed" then some .cmdParamChanged
  else if s = "memory-changed" then some .memoryChanged
  else none

/-- Split a character list at the first comma, mirroring rest.find of a comma
in parse_async_record and the comma alternative of the result-record regex. -/
def splitAtComma : List Char → List Char × Option (List Char)
  | [] => ([], none)
  | c :: rest =>
      if c = ',' then ([], some rest)
      else
        let (pre, post) := splitAtComma rest
        (c :: pre, post)

/-- The token capture of the result-record regex: absent digits give no
token; digits that do not fit in u32 fail the u32 parse, leaving token
none. -/
def tokenOfDigits (ds : List Char) : Option Nat :=
  if ds.isEmpty then none
  else if digitsVal ds < 2 ^ 32 then some (digitsVal ds) else none

/-- Body shared by the result-record regex in parse_result_record: the class
word must be followed by end of line or a comma. -/
def parseResultBody (ds : List Char) (afterCaret : List Char) :
    Except String GdbResult :=
  match resultClassOfString (String.mk (splitAtComma afterCaret).1) with
  | none => .error "Invalid result record format"
  | some cls =>
    match (splitAtComma afterCaret).2 with
    | none => .ok { token := tokenOfDigits ds, cls := cls, results := [] }
    | some rcs =>
      (parse_results rcs).map fun res =>
        { token := tokenOfDigits ds, cls := cls, results := res }

/-- parse_result_record in parser.rs: the anchored regex allows an optional
leading digit run, then a caret, then the class. -/
def parse_result_record (cs : List Char) : Except String GdbResult :=
  match cs.dropWhile Char.isDigit with
  | c :: afterCaret =>
      if c = '^' then parseResultBody (cs.takeWhile Char.isDigit) afterCaret
      else .error "Invalid result record format"
  | [] => .error "Invalid result record format"

/-- The shared body of parse_async_record in parser.rs (the star or equals
prefix is stripped and otherwise ignored; the produced record always has
token none). -/
def parseAsyncBody (rest : List Char) : Except String AsyncRecord :=
  match asyncClassOfString (String.mk (splitAtComma rest).1) with
  | none => .error "Unknown async class"
  | some cls =>
    match (splitAtComma rest).2 with
    | none => .ok { token := none, cls := cls, results := [] }
    | some rcs =>
      (parse_results rcs).map fun res =>
        { token := none, cls := cls, results := res }

/-- parse_async_record in parser.rs. -/
def parse_async_record (cs : List Char) : Except String AsyncRecord :=
  match cs with
  | c :: rest =>
      if c = '*' then parseAsyncBody rest
      else if c = '=' then parseAsyncBody rest
      else .error "Invalid async record prefix"
  | [] => .error "Invalid async record prefix"

/-- parse_gdb_output in parser.rs, on the trimmed character list of the
line: stream records first, then star or equals async records, then lines
containing a caret as result records, otherwise an error. -/
def parseGdbOutputChars (cs : List Char) : Except String GdbOutput :=
  if cs.isEmpty ∨ cs = "(gdb)".toList then .error "Empty or prompt line"
  else
    (parse_stream_record cs).elim
      (if cs.head? = some '*' ∨ cs.head? = some '=' then
        (parse_async_record cs).map .async
      else if cs.head? = some '^' ∨ '^' ∈ cs then
        (parse_result_record cs).map .result
      else .error "Unknown GDB MI output format")
      (fun s => .ok (.stream s))

/-- Whitespace trimming on character lists, modelling str::trim. -/
def trimChars (cs : List Char) : List Char :=
  ((cs.dropWhile Char.isWhitespace).reverse.dropWhile Char.isWhitespace).reverse

/-- parse_gdb_output on a whole line: the Rust function first trims the
line. -/
def parse_gdb_output (line : String) : Except String GdbOutput :=
  parseGdbOutputChars (trimChars line.toList)

/-! Numeric string parsing: Rust u32 FromStr (optional plus sign, decimal
digits, range check) and i32 FromStr (optional sign, decimal digits, range
check). -/

def parseU32 (s : String) : Option Nat :=
  let ds := match s.toList with
    | '+' :: rest => rest
    | cs => cs
  if ds ≠ [] ∧ ds.all Char.isDigit then
    if digitsVal ds < 2 ^ 32 then some (digitsVal ds) else none
  else none

def parseI32 (s : String) : Option Int :=
  match s.toList with
  | '-' :: rest =>
      if rest ≠ [] ∧ rest.all Char.isDigit then
        if digitsVal rest ≤ 2 ^ 31 then some (-(digitsVal rest : Int)) else none
      else none
  | '+' :: rest =>
      if rest ≠ [] ∧ rest.all Char.isDigit then
        if digitsVal rest < 2 ^ 31 then some (digitsVal rest : Int) else none
      else none
  | cs =>
      if cs ≠ [] ∧ cs.all Char.isDigit then
        if digitsVal cs < 2 ^ 31 then some (digitsVal cs : Int) else none
      else none

/-! communication.rs and lib.rs: the pending-command table and routing.

The table token to oneshot sender is modelled as an association list from
token to an abstract sink identifier; completing a sink is modelled by
recording the pair sink-record in a delivery list. -/

abbrev PendingTable := List (Nat × Nat)

def ptLookup : PendingTable → Nat → Option Nat
  | [], _ => none
  | (t, s) :: rest, k => if t = k then some s else ptLookup rest k

def ptInsert (m : PendingTable) (k s : Nat) : PendingTable :=
  match m with
  | [] => [(k, s)]
  | (t, v) :: rest => if t = k then (k, s) :: rest else (t, v) :: ptInsert rest k s

def ptRemove (m : PendingTable) (k : Nat) : PendingTable :=
  m.filter fun p => p.1 ≠ k

/-- The effect of one reader iteration on one line: the updated pending
table, the completions delivered to sinks, and the events emitted on the
event channel. -/
structure RouteEffect where
  pending : PendingTable
  delivered : List (Nat × GdbResult)
  events : List GdbEvent

/-- GdbCommunication process_gdb_output in communication.rs; the reader loop
body in GdbAdapter start_output_reader in lib.rs routes identically. A parse
error is logged and skipped; a result with a token completes the matching
pending sink (removing the entry) or is discarded when no entry matches; a
result without a token, and every async or stream record, goes to the event
channel. -/
def process_gdb_output (line : List Char) (pending : PendingTable) : RouteEffect :=
  match parseGdbOutputChars line with
  | .error _ => ⟨pending, [], []⟩
  | .ok (.result r) =>
    match r.token with
    | some t =>
      match ptLookup pending t with
      | some sink => ⟨ptRemove pending t, [(sink, r)], []⟩
      | none => ⟨pending, [], []⟩
    | none => ⟨pending, [], [.result r]⟩
  | .ok (.async a) => ⟨pending, [], [.async a]⟩
  | .ok (.stream s) => ⟨pending, [], [.stream s]⟩

inductive CommunicationError where
  | writeError
  | channelClosed
  | gdbError (msg : String)
deriving DecidableEq

/-- The msg extraction applied to an error-class result in send_command. -/
def extractErrorMsg (r : GdbResult) : String :=
  ((alGet r.results "msg").bind Value.as_string).getD "Unknown error"

structure CommState where
  has_stdin : Bool
  token_counter : Nat
  pending : PendingTable
  is_running : Bool
  written : List String

/-- Outcome of awaiting the oneshot receiver: either the sender was dropped
without a value, or the reader completed it with a record (after removing
the table entry). -/
inductive AwaitOutcome where
  | dropped
  | completed (r : GdbResult)

/-- GdbCommunication send_command in communication.rs, with the stdin write
and flush outcomes and the await outcome passed as oracles. The token is
the fetched counter value (fetch_add wraps at 2 to the 32). Note that the
pending entry inserted before the write is not removed on a write or flush
failure. -/
def send_command (st : CommState) (command : String) (sink : Nat)
    (writeOk flushOk : Bool) (await : AwaitOutcome) :
    CommState × Except CommunicationError GdbResult :=
  if ¬ st.is_running then (st, .error .channelClosed)
  else
    let token := st.token_counter
    let line := toString token ++ "-" ++ command ++ "\n"
    let st1 := { st with token_counter := (st.token_counter + 1) % 2 ^ 32,
                         pending := ptInsert st.pending token sink }
    if ¬ st1.has_stdin then (st1, .error .channelClosed)
    else if ¬ writeOk then (st1, .error .writeError)
    else if ¬ flushOk then (st1, .error .writeError)
    else
      let st2 := { st1 with written := st1.written ++ [line] }
      match await with
      | .dropped => (st2, .error .channelClosed)
      | .completed r =>
        let st3 := { st2 with pending := ptRemove st2.pending token }
        if r.cls = .error then (st3, .error (.gdbError (extractErrorMsg r)))
        else (st3, .ok r)

/-- GdbCommunication stop in communication.rs: set the running flag to
false and drop the stdin handle; the pending table is not touched. -/
def GdbCommunication.stop (st : CommState) : CommState :=
  { st with is_running := false, has_stdin := false }

/-! lib.rs: the adapter facade. -/

inductive GdbAdapterError where
  | processStartError
  | commandError (msg : String)
  | parseError (msg : String)
  | processTerminated
  | communicationError (msg : String)
deriving DecidableEq

structure AdapterState where
  has_process : Bool
  has_stdin : Bool
  token_counter : Nat
  pending : PendingTable
  is_running : Bool
  written : List String

/-- GdbAdapter send_command in lib.rs (same shape as the communication-core
send path, with the adapter error type). The pending entry inserted before
the write survives a write or flush failure. -/
def adapter_send_command (st : AdapterState) (command : String) (sink : Nat)
    (writeOk flushOk : Bool) (await : AwaitOutcome) :
    AdapterState × Except GdbAdapterError GdbResult :=
  if ¬ st.is_running then (st, .error .processTerminated)
  else
    let token := st.token_counter
    let line := toString token ++ "-" ++ command ++ "\n"
    let st1 := { st with token_counter := (st.token_counter + 1) % 2 ^ 32,
                         pending := ptInsert st.pending token sink }
    if ¬ st1.has_stdin then (st1, .error .processTerminated)
    else if ¬ writeOk then (st1, .error (.communicationError "Failed to write command"))
    else if ¬ flushOk then (st1, .error (.communicationError "Failed to flush command"))
    else
      let st2 := { st1 with written := st1.written ++ [line] }
      match await with
      | .dropped => (st2, .error (.communicationError "Command response channel closed"))
      | .completed r =>
        let st3 := { st2 with pending := ptRemove st2.pending token }
        if r.cls = .error then (st3, .error (.commandError (extractErrorMsg r)))
        else (st3, .ok r)

/-- GdbAdapter stop_session in lib.rs: a no-op when not running; otherwise
a best-effort gdb-exit (result ignored), then the running flag is cleared,
the child is killed (process handle taken) and stdin dropped. The pending
table is never drained. -/
def stop_session (st : AdapterState) (sink : Nat)
    (writeOk flushOk : Bool) (await : AwaitOutcome) :
    AdapterState × Except GdbAdapterError Unit :=
  if ¬ st.is_running then (st, .ok ())
  else
    let (st1, _) := adapter_send_command st "gdb-exit" sink writeOk flushOk await
    ({ st1 with is_running := false, has_process := false, has_stdin := false },
     .ok ())

/-! commands.rs: domain records and result decoders. -/

inductive CommandError where
  | communication (e : CommunicationError)
  | gdbError (msg : String)
  | missingField (f : String)
  | typeError (m : String)
deriving DecidableEq

structure Breakpoint where
  number : Nat
  enabled : Bool
  addr : Option String
  func : Option String
  file : Option String
  fullname : Option String
  line : Option Nat
  times : Nat
deriving DecidableEq

/-- Breakpoint from_tuple in commands.rs. -/
def Breakpoint.from_tuple (t : List (String × Value)) :
    Except CommandError Breakpoint :=
  match ((alGet t "number").bind Value.as_string).bind parseU32 with
  | none => .error (.missingField "number")
  | some number =>
    .ok { number := number
          enabled := (((alGet t "enabled").bind Value.as_string).map
            (fun s => s == "y")).getD false
          addr := (alGet t "addr").bind Value.as_string
          func := (alGet t "func").bind Value.as_string
          file := (alGet t "file").bind Value.as_string
          fullname := (alGet t "fullname").bind Value.as_string
          line := ((alGet t "line").bind Value.as_string).bind parseU32
          times := (((alGet t "times").bind Value.as_string).bind parseU32).getD 0 }

structure StackFrame where
  level : Nat
  addr : String
  func : Option String
  file : Option String
  fullname : Option String
  line : Option Nat
deriving DecidableEq

/-- StackFrame from_tuple in commands.rs: level and addr are read directly
from the given tuple; there is no unwrapping of a nested frame key. -/
def StackFrame.from_tuple (t : List (String × Value)) :
    Except CommandError StackFrame :=
  match ((alGet t "level").bind Value.as_string).bind parseU32 with
  | none => .error (.missingField "level")
  | some level =>
    match (alGet t "addr").bind Value.as_string with
    | none => .error (.missingField "addr")
    | some addr =>
      .ok { level := level
            addr := addr
            func := (alGet t "func").bind Value.as_string
            file := (alGet t "file").bind Value.as_string
            fullname := (alGet t "fullname").bind Value.as_string
            line := ((alGet t "line").bind Value.as_string).bind parseU32 }

/-- The BreakpointTable body lookup performed by break_list in commands.rs. -/
def breakpointTableBody (results : List (String × Value)) : Option Value :=
  (alGet results "BreakpointTable").bind fun v =>
    match v with
    | .tuple t => alGet t "body"
    | _ => none

/-- The element loop of break_list: tuple elements are decoded (the first
failure aborts), non-tuple elements are skipped. -/
def decodeBreakpoints : List Value → Except CommandError (List Breakpoint)
  | [] => .ok []
  | .tuple t :: rest => do
      let bp ← Breakpoint.from_tuple t
      let others ← decodeBreakpoints rest
      .ok (bp :: others)
  | _ :: rest => decodeBreakpoints rest

/-- The decoding stage of GdbCommands break_list in commands.rs, applied to
the results of a successful break-list command: a missing
BreakpointTable.body is a MissingField error; a body that is not a list
yields the empty breakpoint list. -/
def break_list_decode (results : List (String × Value)) :
    Except CommandError (List Breakpoint) :=
  match breakpointTableBody results with
  | none => .error (.missingField "BreakpointTable.body")
  | some body =>
    match body with
    | .list bps => decodeBreakpoints bps
    | _ => .ok []

/-- The element loop of stack_list_frames: tuple elements are decoded by
StackFrame from_tuple (the first failure aborts), non-tuple elements are
skipped. -/
def decodeFrames : List Value → Except CommandError (List StackFrame)
  | [] => .ok []
  | .tuple t :: rest => do
      let f ← StackFrame.from_tuple t
      let others ← decodeFrames rest
      .ok (f :: others)
  | _ :: rest => decodeFrames rest

/-- The decoding stage of GdbCommands stack_list_frames in commands.rs: a
missing stack key is a MissingField error; a stack value that is not a list
yields the empty frame list. -/
def stack_list_frames_decode (results : List (String × Value)) :
    Except CommandError (List StackFrame) :=
  match alGet results "stack" with
  | none => .error (.missingField "stack")
  | some (.list frames) => decodeFrames frames
  | some _ => .ok []

/-! events.rs: debug state machine. -/

inductive DebugState where
  | stopped | starting | loaded | running | paused
  | exited (code : Int)
  | error (msg : String)
deriving DecidableEq

structure ExecutionInfo where
  state : DebugState
  current_frame : Option StackFrame
  reason : Option String
  signal_name : Option String
  signal_meaning : Option String
  exit_code : Option Int
deriving DecidableEq

/-- The default ExecutionInfo in events.rs. -/
def ExecutionInfo.default : ExecutionInfo :=
  { state := .stopped, current_frame := none, reason := none,
    signal_name := none, signal_meaning := none, exit_code := none }

/-- The reason-specific part of the stopped branch of handle_async_record
in events.rs, applied after the state has been set to paused. -/
def applyStopReason (results : List (String × Value)) (i : ExecutionInfo) :
    ExecutionInfo :=
  match (alGet results "reason").bind Value.as_string with
  | none => i
  | some r =>
    let i1 := { i with reason := some r }
    if r = "exited-normally" then
      { i1 with state := .exited 0, exit_code := some 0 }
    else if r = "exited" then
      match ((alGet results "exit-code").bind Value.as_string).bind parseI32 with
      | some code => { i1 with state := .exited code, exit_code := some code }
      | none => i1
    else if r = "signal-received" then
      let i2 := match (alGet results "signal-name").bind Value.as_string with
        | some sn => { i1 with signal_name := some sn }
        | none => i1
      match (alGet results "signal-meaning").bind Value.as_string with
      | some sm => { i2 with signal_meaning := some sm }
      | none => i2
    else i1

/-- The frame extraction of the stopped branch of handle_async_record in
events.rs: the frame field, when present as a tuple that decodes, replaces
the current frame. -/
def applyStopFrame (results : List (String × Value)) (i : ExecutionInfo) :
    ExecutionInfo :=
  match (alGet results "frame").bind Value.as_tuple with
  | none => i
  | some ft =>
    match StackFrame.from_tuple ft with
    | .ok f => { i with current_frame := some f }
    | .error _ => i

/-- GdbEventHandler handle_async_record in events.rs, as its effect on the
execution info (callbacks and logging omitted). -/
def handle_async_record (info : ExecutionInfo) (rec : AsyncRecord) :
    ExecutionInfo :=
  match rec.cls with
  | .running => { info with state := .running, current_frame := none, reason := none }
  | .stopped =>
      applyStopFrame rec.results (applyStopReason rec.results { info with state := .paused })
  | .threadGroupExited => { info with state := .exited 0 }
  | _ => info

/-- Characterization of value-parser inputs whose opening quote is never
closed: running the quoted-string loop of parse_value reaches the end of
the input without meeting an unescaped closing quote. -/
def unterminated : List Char → Bool → Bool
  | [], _ => true
  | _ :: rest, true => unterminated rest false
  | c :: rest, false =>
      if c = '\\' then unterminated rest true
      else if c = '"' then false
      else unterminated rest false

/-! Helper lemmas. -/

theorem ptLookup_ptInsert (m : PendingTable) (k s q : Nat) :
    ptLookup (ptInsert m k s) q = if k = q then some s else ptLookup m q := by
  induction m with
  | nil => simp [ptInsert, ptLookup]
  | cons p rest ih =>
      obtain ⟨t, v⟩ := p
      simp only [ptInsert]
      by_cases htk : t = k
      · subst htk
        by_cases hq : t = q <;> simp [ptLookup, hq]
      · simp only [if_neg htk, ptLookup, ih]
        by_cases htq : t = q <;> by_cases hkq : k = q <;> simp_all

theorem ptLookup_ptRemove (m : PendingTable) (k q : Nat) :
    ptLookup (ptRemove m k) q = if k = q then none else ptLookup m q := by
  induction m with
  | nil => simp [ptRemove, ptLookup]
  | cons p rest ih =>
      obtain ⟨t, v⟩ := p
      simp only [ptRemove, List.filter_cons] at ih ⊢
      by_cases htk : t = k <;> by_cases htq : t = q <;> by_cases hkq : k = q <;>
        simp_all [ptLookup]

theorem takeWhile_append_stop {α : Type} (p : α → Bool) :
    ∀ (ds : List α) (x : α) (r : List α), (∀ c ∈ ds, p c = true) → p x = false →
    (ds ++ x :: r).takeWhile p = ds ∧ (ds ++ x :: r).dropWhile p = x :: r := by
  intro ds
  induction ds with
  | nil =>
      intro x r _ hx
      simp [List.takeWhile, List.dropWhile, hx]
  | cons d ds' ih =>
      intro x r hall hx
      have hd : p d = true := hall d (by simp)
      have hrest := ih x r (fun c hc => hall c (by simp [hc])) hx
      simp [List.takeWhile, List.dropWhile, hd, hrest.1, hrest.2]

theorem except_map_eq_ok {ε α β : Type} (f : α → β) (x : Except ε α) (b : β) :
    Except.map f x = .ok b ↔ ∃ a, x = .ok a ∧ f a = b := by
  cases x <;> simp [Except.map]

/-! Claim theorems. -/

/-- C1: every parsed result record processed by the reader is routed
exclusively: with a token matching a pending entry, it is delivered exactly
once to that entry's sink (the entry being removed) and to nothing else;
without a token, it is only emitted as a Result event; with a token but no
matching entry, it is discarded silently, never reaching the event
channel. -/
theorem result_record_routing_exclusive
    (line : List Char) (pending : PendingTable) (r : GdbResult)
    (hparse : parseGdbOutputChars line = .ok (.result r)) :
    (∀ t sink, r.token = some t → ptLookup pending t = some sink →
       process_gdb_output line pending = ⟨ptRemove pending t, [(sink, r)], []⟩) ∧
    (r.token = none →
       process_gdb_output line pending = ⟨pending, [], [.result r]⟩) ∧
    (∀ t, r.token = some t → ptLookup pending t = none →
       process_gdb_output line pending = ⟨pending, [], []⟩) := by
  refine ⟨?_, ?_, ?_⟩
  · intro t sink htok hlook
    simp [process_gdb_output, hparse, htok, hlook]
  · intro htok
    simp [process_gdb_output, hparse, htok]
  · intro t htok hlook
    simp [process_gdb_output, hparse, htok, hlook]

/-- C1 witness: the record for line 42 caret done is delivered to the sink
registered under token 42, the entry is removed, and no event is emitted. -/
theorem result_record_routing_exclusive_witness :
    process_gdb_output ("42^done".toList) [(42, 7)] =
      ⟨[], [(7, { token := some 42, cls := .done, results := [] })], []⟩ ∧
    process_gdb_output ("^done".toList) [(42, 7)] =
      ⟨[(42, 7)], [], [.result { token := none, cls := .done, results := [] }]⟩ ∧
    process_gdb_output ("99^done".toList) [(42, 7)] = ⟨[(42, 7)], [], []⟩ := by
  refine ⟨?_, ?_, ?_⟩
  · exact (result_record_routing_exclusive "42^done".toList [(42, 7)]
      { token := some 42, cls := .done, results := [] } rfl).1 42 7 rfl rfl
  · exact (result_record_routing_exclusive "^done".toList [(42, 7)]
      { token := none, cls := .done, results := [] } rfl).2.1 rfl
  · exact (result_record_routing_exclusive "99^done".toList [(42, 7)]
      { token := some 99, cls := .done, results := [] } rfl).2.2 99 rfl rfl

/-- C2 counterexample: with the session running and stdin available, a
failing stdin write makes send_command return WriteError, yet the pending
table still contains the entry registered under the allocated token (token
1, sink 7): the registration is not rolled back. -/
theorem send_command_write_failure_keeps_entry :
    (send_command ⟨true, 1, [], true, []⟩ "break-insert main" 7 false true
        .dropped).2 = .error .writeError ∧
    ptLookup (send_command ⟨true, 1, [], true, []⟩ "break-insert main" 7 false true
        .dropped).1.pending 1 = some 7 := ⟨rfl, rfl⟩

/-- C2 amended: on an I/O failure of the stdin write or flush, send_command
returns WriteError, but the pending-command table still contains the entry
registered under the allocated token; the registration is not rolled
back. -/
theorem send_command_write_failure_no_rollback
    (st : CommState) (cmd : String) (sink : Nat) (b : Bool) (a : AwaitOutcome)
    (hrun : st.is_running = true) (hstdin : st.has_stdin = true) :
    (send_command st cmd sink false b a).2 = .error .writeError ∧
    ptLookup (send_command st cmd sink false b a).1.pending st.token_counter =
      some sink ∧
    (send_command st cmd sink true false a).2 = .error .writeError ∧
    ptLookup (send_command st cmd sink true false a).1.pending st.token_counter =
      some sink := by
  refine ⟨?_, ?_, ?_, ?_⟩ <;>
    simp [send_command, hrun, hstdin, ptLookup_ptInsert]

/-- C2 witness for the amended statement at a concrete state. -/
theorem send_command_write_failure_no_rollback_witness :
    (send_command ⟨true, 5, [(2, 9)], true, []⟩ "exec-run" 8 true false
        .dropped).2 = .error .writeError ∧
    ptLookup (send_command ⟨true, 5, [(2, 9)], true, []⟩ "exec-run" 8 true false
        .dropped).1.pending 5 = some 8 := by
  have h := send_command_write_failure_no_rollback
    ⟨true, 5, [(2, 9)], true, []⟩ "exec-run" 8 false .dropped rfl rfl
  exact ⟨h.2.2.1, h.2.2.2⟩

/-- C3 counterexample: stop_session on a running session with a command
still pending under token 5 clears the running flag, kills the child and
drops stdin, but the pending table is not drained: the entry for token 5 is
still registered afterwards, so its awaiting caller is never completed with
ChannelClosed. -/
theorem stop_session_leaves_pending_entry :
    (stop_session ⟨true, true, 1, [(5, 77)], true, []⟩ 9 true true
        (.completed { token := some 1, cls := .done, results := [] })).1.is_running
      = false ∧
    (stop_session ⟨true, true, 1, [(5, 77)], true, []⟩ 9 true true
        (.completed { token := some 1, cls := .done, results := [] })).1.has_process
      = false ∧
    ptLookup (stop_session ⟨true, true, 1, [(5, 77)], true, []⟩ 9 true true
        (.completed { token := some 1, cls := .done, results := [] })).1.pending 5
      = some 77 := ⟨rfl, rfl, rfl⟩

/-- C3 amended: stop_session on a running session issues a best-effort
gdb-exit, sets the running flag to false, kills the child and drops stdin,
and returns ok; but it does not drain the pending-command table: every
entry registered under a token other than the one allocated for gdb-exit is
still registered afterwards (no pending command is completed with
ChannelClosed by shutdown). -/
theorem stop_session_no_drain
    (st : AdapterState) (sink : Nat) (w f : Bool) (a : AwaitOutcome)
    (hrun : st.is_running = true) :
    (stop_session st sink w f a).2 = .ok () ∧
    (stop_session st sink w f a).1.is_running = false ∧
    (stop_session st sink w f a).1.has_process = false ∧
    (stop_session st sink w f a).1.has_stdin = false ∧
    (∀ t s, t ≠ st.token_counter → ptLookup st.pending t = some s →
       ptLookup (stop_session st sink w f a).1.pending t = some s) := by
  refine ⟨?_, ?_, ?_, ?_, ?_⟩ <;>
    [skip; skip; skip; skip; intro t s ht hs] <;>
    · simp only [stop_session, adapter_send_command, hrun]
      cases a <;>
        simp_all [ptLookup_ptInsert, ptLookup_ptRemove] <;>
        split_ifs <;>
        simp_all [ptLookup_ptInsert, ptLookup_ptRemove] <;>
        omega

/-- C3 witness for the amended statement at a concrete state. -/
theorem stop_session_no_drain_witness :
    (stop_session ⟨true, true, 3, [(2, 11)], true, []⟩ 4 true true
        .dropped).1.is_running = false ∧
    ptLookup (stop_session ⟨true, true, 3, [(2, 11)], true, []⟩ 4 true true
        .dropped).1.pending 2 = some 11 := by
  have h := stop_session_no_drain ⟨true, true, 3, [(2, 11)], true, []⟩ 4 true true
    .dropped rfl
  exact ⟨h.2.1, h.2.2.2.2 2 11 (by decide) rfl⟩

theorem applyStopFrame_state (results : List (String × Value)) (i : ExecutionInfo) :
    (applyStopFrame results i).state = i.state := by
  unfold applyStopFrame
  split
  · rfl
  · split <;> rfl

theorem applyStopFrame_exit_code (results : List (String × Value)) (i : ExecutionInfo) :
    (applyStopFrame results i).exit_code = i.exit_code := by
  unfold applyStopFrame
  split
  · rfl
  · split <;> rfl

theorem applyStopFrame_reason (results : List (String × Value)) (i : ExecutionInfo) :
    (applyStopFrame results i).reason = i.reason := by
  unfold applyStopFrame
  split
  · rfl
  · split <;> rfl

theorem applyStopFrame_signal_name (results : List (String × Value)) (i : ExecutionInfo) :
    (applyStopFrame results i).signal_name = i.signal_name := by
  unfold applyStopFrame
  split
  · rfl
  · split <;> rfl

theorem applyStopFrame_signal_meaning (results : List (String × Value)) (i : ExecutionInfo) :
    (applyStopFrame results i).signal_meaning = i.signal_meaning := by
  unfold applyStopFrame
  split
  · rfl
  · split <;> rfl

/-- C4: dispositions of a stopped async record in handle_async_record.
Reason exited with a parseable exit-code makes the state Exited with that
code; reason exited-normally makes it Exited 0 with exit code 0; reason
signal-received leaves the state Paused and records the signal name and
meaning when present; any other reason leaves the state Paused with the
reason recorded; a record with no reason leaves the state Paused; and the
current frame is taken from the record's frame field whenever that field is
a tuple that decodes to a stack frame. -/
theorem stopped_record_state_transitions
    (info : ExecutionInfo) (rec : AsyncRecord) (hcls : rec.cls = .stopped) :
    (∀ s n, alGet rec.results "reason" = some (.str "exited") →
       alGet rec.results "exit-code" = some (.str s) → parseI32 s = some n →
       (handle_async_record info rec).state = .exited n ∧
       (handle_async_record info rec).exit_code = some n) ∧
    (alGet rec.results "reason" = some (.str "exited-normally") →
       (handle_async_record info rec).state = .exited 0 ∧
       (handle_async_record info rec).exit_code = some 0) ∧
    (alGet rec.results "reason" = some (.str "signal-received") →
       (handle_async_record info rec).state = .paused ∧
       (∀ sn, alGet rec.results "signal-name" = some (.str sn) →
          (handle_async_record info rec).signal_name = some sn) ∧
       (∀ sm, alGet rec.results "signal-meaning" = some (.str sm) →
          (handle_async_record info rec).signal_meaning = some sm)) ∧
    (∀ r, alGet rec.results "reason" = some (.str r) →
       r ≠ "exited-normally" → r ≠ "exited" → r ≠ "signal-received" →
       (handle_async_record info rec).state = .paused ∧
       (handle_async_record info rec).reason = some r) ∧
    (alGet rec.results "reason" = none →
       (handle_async_record info rec).state = .paused) ∧
    (∀ ft f, alGet rec.results "frame" = some (.tuple ft) →
       StackFrame.from_tuple ft = .ok f →
       (handle_async_record info rec).current_frame = some f) := by
  have hH : handle_async_record info rec =
      applyStopFrame rec.results
        (applyStopReason rec.results { info with state := .paused }) := by
    unfold handle_async_record
    rw [hcls]
  refine ⟨?_, ?_, ?_, ?_, ?_, ?_⟩
  · intro s n hreason hec hparse
    rw [hH, applyStopFrame_state, applyStopFrame_exit_code]
    constructor <;>
      simp [applyStopReason, hreason, hec, hparse, Value.as_string]
  · intro hreason
    rw [hH, applyStopFrame_state, applyStopFrame_exit_code]
    constructor <;> simp [applyStopReason, hreason, Value.as_string]
  · intro hreason
    rw [hH, applyStopFrame_state, applyStopFrame_signal_name,
      applyStopFrame_signal_meaning]
    refine ⟨?_, ?_, ?_⟩
    · simp [applyStopReason, hreason, Value.as_string]
      all_goals split <;> (try split) <;> simp_all
    · intro sn hsn
      simp [applyStopReason, hreason, hsn, Value.as_string]
      all_goals split <;> simp_all
    · intro sm hsm
      simp [applyStopReason, hreason, hsm, Value.as_string]
  · intro r hreason h1 h2 h3
    rw [hH, applyStopFrame_state, applyStopFrame_reason]
    constructor <;> simp [applyStopReason, hreason, Value.as_string, h1, h2, h3]
  · intro hreason
    rw [hH, applyStopFrame_state]
    simp [applyStopReason, hreason]
  · intro ft f hframe hdec
    rw [hH]
    simp [applyStopFrame, hframe, hdec, Value.as_tuple]

/-- C4 witness: a stopped record with reason exited and exit-code 2 moves
the state to Exited 2 with exit code 2; one with reason breakpoint-hit and
a decodable frame pauses with the frame recorded. -/
theorem stopped_record_state_transitions_witness :
    (handle_async_record ExecutionInfo.default
        { token := none, cls := .stopped,
          results := [("reason", .str "exited"), ("exit-code", .str "2")] }).state
      = .exited 2 ∧
    (handle_async_record ExecutionInfo.default
        { token := none, cls := .stopped,
          results := [("reason", .str "exited"), ("exit-code", .str "2")] }).exit_code
      = some 2 ∧
    (handle_async_record ExecutionInfo.default
        { token := none, cls := .stopped,
          results := [("reason", .str "breakpoint-hit"),
            ("frame", .tuple [("level", .str "0"), ("addr", .str "0x08048564"),
              ("func", .str "main")])] }).state = .paused ∧
    (handle_async_record ExecutionInfo.default
        { token := none, cls := .stopped,
          results := [("reason", .str "breakpoint-hit"),
            ("frame", .tuple [("level", .str "0"), ("addr", .str "0x08048564"),
              ("func", .str "main")])] }).current_frame
      = some { level := 0, addr := "0x08048564", func := some "main",
               file := none, fullname := none, line := none } := by
  have h1 := (stopped_record_state_transitions ExecutionInfo.default
    { token := none, cls := .stopped,
      results := [("reason", .str "exited"), ("exit-code", .str "2")] } rfl).1
    "2" 2 rfl rfl rfl
  have h2 := stopped_record_state_transitions ExecutionInfo.default
    { token := none, cls := .stopped,
      results := [("reason", .str "breakpoint-hit"),
        ("frame", .tuple [("level", .str "0"), ("addr", .str "0x08048564"),
          ("func", .str "main")])] } rfl
  refine ⟨h1.1, h1.2, ?_, ?_⟩
  · exact (h2.2.2.2.1 "breakpoint-hit" rfl (by decide) (by decide) (by decide)).1
  · exact h2.2.2.2.2.2 _ _ rfl rfl

theorem decodeBreakpoints_map_tuple :
    ∀ ts : List (List (String × Value)),
    decodeBreakpoints (ts.map Value.tuple) = ts.mapM Breakpoint.from_tuple := by
  intro ts
  induction ts with
  | nil => rfl
  | cons t ts ih =>
      simp only [List.map_cons, List.mapM_cons, decodeBreakpoints]
      cases hbp : Breakpoint.from_tuple t <;>
        simp [hbp, ih, Except.bind, Bind.bind, pure, Except.pure, Except.map]

theorem decodeFrames_map_tuple :
    ∀ ts : List (List (String × Value)),
    decodeFrames (ts.map Value.tuple) = ts.mapM StackFrame.from_tuple := by
  intro ts
  induction ts with
  | nil => rfl
  | cons t ts ih =>
      simp only [List.map_cons, List.mapM_cons, decodeFrames]
      cases hbp : StackFrame.from_tuple t <;>
        simp [hbp, ih, Except.bind, Bind.bind, pure, Except.pure, Except.map]

/-- C6 counterexample: a successful break-list result whose results tuple
has no BreakpointTable.body (here the empty tuple) makes break_list return
a MissingField error rather than an empty breakpoint list. -/
theorem break_list_missing_body_errors :
    break_list_decode [] = .error (.missingField "BreakpointTable.body") := rfl

/-- C6 amended: when the results tuple of a successful break-list result
lacks a BreakpointTable.body entry, break_list returns a MissingField
error; when body is present but is not a list, break_list returns the
empty breakpoint list; when body is present as a list of tuples, each
tuple is decoded into a Breakpoint. -/
theorem break_list_body_decoding (results : List (String × Value)) :
    (breakpointTableBody results = none →
       break_list_decode results = .error (.missingField "BreakpointTable.body")) ∧
    (∀ v, breakpointTableBody results = some v → (∀ l, v ≠ .list l) →
       break_list_decode results = .ok []) ∧
    (∀ ts : List (List (String × Value)),
       breakpointTableBody results = some (.list (ts.map Value.tuple)) →
       break_list_decode results = ts.mapM Breakpoint.from_tuple) := by
  refine ⟨?_, ?_, ?_⟩
  · intro h
    simp [break_list_decode, h]
  · intro v hv hnl
    cases v with
    | str s => simp [break_list_decode, hv]
    | list l => exact absurd rfl (hnl l)
    | tuple t => simp [break_list_decode, hv]
  · intro ts hts
    simp [break_list_decode, hts, decodeBreakpoints_map_tuple]

/-- C6 witness for the amended statement: a body with one breakpoint tuple
decodes to one Breakpoint; a results tuple without the table errors; a
non-list body gives the empty list. -/
theorem break_list_body_decoding_witness :
    break_list_decode
        [("BreakpointTable", .tuple [("body",
          .list [Value.tuple [("number", .str "1"), ("enabled", .str "y"),
                              ("times", .str "3")]])])]
      = .ok [{ number := 1, enabled := true, addr := none, func := none,
               file := none, fullname := none, line := none, times := 3 }] ∧
    break_list_decode [("x", .str "y")]
      = .error (.missingField "BreakpointTable.body") ∧
    break_list_decode [("BreakpointTable", .tuple [("body", .str "odd")])]
      = .ok [] := by
  refine ⟨?_, ?_, ?_⟩
  · exact ((break_list_body_decoding
      [("BreakpointTable", .tuple [("body",
        .list [Value.tuple [("number", .str "1"), ("enabled", .str "y"),
                            ("times", .str "3")]])])]).2.2
      [[("number", .str "1"), ("enabled", .str "y"), ("times", .str "3")]]
      rfl).trans rfl
  · exact (break_list_body_decoding [("x", .str "y")]).1 rfl
  · exact (break_list_body_decoding
      [("BreakpointTable", .tuple [("body", .str "odd")])]).2.1
      (.str "odd") rfl (fun l h => Value.noConfusion h)

/-- C7 counterexample: an element wrapped as frame equals tuple does not
decode to the same StackFrame as its unwrapped form: the decoder performs
no unwrapping of the frame key, so the wrapped tuple fails with
MissingField level (and stack_list_frames propagates the error), while the
unwrapped tuple decodes fine. -/
theorem stack_frame_wrapped_element_errors :
    StackFrame.from_tuple
        [("frame", Value.tuple [("level", .str "0"), ("addr", .str "0x1")])]
      = .error (.missingField "level") ∧
    StackFrame.from_tuple [("level", .str "0"), ("addr", .str "0x1")]
      = .ok { level := 0, addr := "0x1", func := none, file := none,
              fullname := none, line := none } ∧
    stack_list_frames_decode
        [("stack", .list [Value.tuple
          [("frame", Value.tuple [("level", .str "0"), ("addr", .str "0x1")])]])]
      = .error (.missingField "level") := ⟨rfl, rfl, rfl⟩

/-- C7 amended: stack_list_frames reads the stack value as a list and
decodes each tuple element directly with the StackFrame decoder; no level
of frame wrapping is unwrapped: whenever the tuple itself has no parseable
level field, decoding fails with MissingField level regardless of any
nested frame entry. A missing stack key is a MissingField error. -/
theorem stack_list_frames_decoding (results : List (String × Value)) :
    (alGet results "stack" = none →
       stack_list_frames_decode results = .error (.missingField "stack")) ∧
    (∀ ts : List (List (String × Value)),
       alGet results "stack" = some (.list (ts.map Value.tuple)) →
       stack_list_frames_decode results = ts.mapM StackFrame.from_tuple) ∧
    (∀ t : List (String × Value),
       ((alGet t "level").bind Value.as_string).bind parseU32 = none →
       StackFrame.from_tuple t = .error (.missingField "level")) := by
  refine ⟨?_, ?_, ?_⟩
  · intro h
    simp [stack_list_frames_decode, h]
  · intro ts hts
    simp [stack_list_frames_decode, hts, decodeFrames_map_tuple]
  · intro t ht
    simp [StackFrame.from_tuple, ht]

/-- C7 witness for the amended statement: a stack of one plain frame tuple
decodes to one StackFrame; a missing stack key errors; a tuple whose only
level is nested under frame has no top-level level and errors. -/
theorem stack_list_frames_decoding_witness :
    stack_list_frames_decode
        [("stack", .list [Value.tuple [("level", .str "0"),
          ("addr", .str "0x2"), ("func", .str "main")]])]
      = .ok [{ level := 0, addr := "0x2", func := some "main", file := none,
               fullname := none, line := none }] ∧
    stack_list_frames_decode [("z", .str "w")]
      = .error (.missingField "stack") ∧
    StackFrame.from_tuple
        [("frame", Value.tuple [("level", .str "4"), ("addr", .str "0x8")])]
      = .error (.missingField "level") := by
  refine ⟨?_, ?_, ?_⟩
  · exact ((stack_list_frames_decoding
      [("stack", .list [Value.tuple [("level", .str "0"),
        ("addr", .str "0x2"), ("func", .str "main")]])]).2.1
      [[("level", .str "0"), ("addr", .str "0x2"), ("func", .str "main")]]
      rfl).trans rfl
  · exact (stack_list_frames_decoding [("z", .str "w")]).1 rfl
  · exact (stack_list_frames_decoding []).2.2
      [("frame", Value.tuple [("level", .str "4"), ("addr", .str "0x8")])] rfl

theorem stringBody_unterminated :
    ∀ (cs : List Char) (esc : Bool) (acc : String),
    unterminated cs esc = true → (stringBody cs esc acc).2 = [] := by
  intro cs
  induction cs with
  | nil =>
      intro esc acc _
      cases esc <;> rfl
  | cons c rest ih =>
      intro esc acc h
      cases esc
      · by_cases hb : c = '\\'
        · simp only [unterminated, if_pos hb] at h
          simp only [stringBody, if_pos hb]
          exact ih true acc h
        · by_cases hq : c = '"'
          · simp [unterminated, hb, hq] at h
          · simp only [unterminated, if_neg hb, if_neg hq] at h
            simp only [stringBody, if_neg hb, if_neg hq]
            exact ih false _ h
      · simp only [unterminated] at h
        simp only [stringBody]
        split_ifs <;> exact ih false _ h

/-- C8 counterexample: an input opening a quoted string whose closing quote
never arrives parses successfully (to the accumulated content, consuming
everything) instead of returning an error; the same holds for a whole
key-value results line. -/
theorem parse_value_unterminated_accepted :
    parse_value 10 ("\"abc".toList) = .ok (.str "abc", []) ∧
    parse_results ("msg=\"abc".toList) = .ok [("msg", .str "abc")] := ⟨rfl, rfl⟩

/-- C8 amended: for every value-parser input that opens a quoted string
whose closing double quote never arrives before end of input, parse_value
succeeds, returning the accumulated string content and consuming the whole
input (no error is reported). -/
theorem parse_value_unterminated_string_ok (fuel : Nat) (cs : List Char)
    (h : unterminated cs false = true) :
    ∃ s, parse_value fuel ('"' :: cs) = .ok (.str s, []) := by
  have h2 := stringBody_unterminated cs false "" h
  refine ⟨(stringBody cs false "").1, ?_⟩
  rw [parse_value]
  simp only []
  rw [← h2]

/-- C8 witness for the amended statement at a concrete unterminated
input. -/
theorem parse_value_unterminated_string_ok_witness :
    ∃ s, parse_value 3 ('"' :: ['x', 'y']) = .ok (.str s, []) :=
  parse_value_unterminated_string_ok 3 ['x', 'y'] (by decide)

theorem parse_stream_record_none (c : Char) (rest : List Char)
    (h1 : c ≠ '~') (h2 : c ≠ '@') (h3 : c ≠ '&') :
    parse_stream_record (c :: rest) = none := by
  unfold parse_stream_record
  split_ifs with h
  · rfl
  · simp [h1, h2, h3]

theorem parseAsyncBody_token (rest : List Char) (a : AsyncRecord)
    (h : parseAsyncBody rest = .ok a) : a.token = none := by
  unfold parseAsyncBody at h
  split at h
  · exact absurd h (by simp)
  · split at h
    · injection h with h'
      rw [← h']
    · rw [except_map_eq_ok] at h
      obtain ⟨res, _, hf⟩ := h
      rw [← hf]

theorem parse_async_record_token (cs : List Char) (a : AsyncRecord)
    (h : parse_async_record cs = .ok a) : a.token = none := by
  unfold parse_async_record at h
  split at h
  case h_1 c rest =>
    by_cases h1 : c = '*'
    · rw [if_pos h1] at h
      exact parseAsyncBody_token _ a h
    · rw [if_neg h1] at h
      by_cases h2 : c = '='
      · rw [if_pos h2] at h
        exact parseAsyncBody_token _ a h
      · rw [if_neg h2] at h
        exact absurd h (by simp)
  case h_2 => exact absurd h (by simp)

/-- Inversion of the dispatcher: an async output can only come from
parse_async_record. -/
theorem parseGdbOutputChars_async_inv (cs : List Char) (a : AsyncRecord)
    (h : parseGdbOutputChars cs = .ok (.async a)) :
    parse_async_record cs = .ok a := by
  unfold parseGdbOutputChars at h
  cases hsr : parse_stream_record cs with
  | some s =>
      rw [hsr, Option.elim_some] at h
      split_ifs at h <;> exact absurd h (by simp)
  | none =>
      rw [hsr, Option.elim_none] at h
      by_cases h1 : (cs.isEmpty = true ∨ cs = "(gdb)".toList)
      · rw [if_pos h1] at h
        exact absurd h (by simp)
      · rw [if_neg h1] at h
        by_cases hae : cs.head? = some '*' ∨ cs.head? = some '='
        · rw [if_pos hae, except_map_eq_ok] at h
          obtain ⟨a', ha', hfa⟩ := h
          injection hfa with hfa'
          rw [← hfa']
          exact ha'
        · rw [if_neg hae] at h
          by_cases hres : cs.head? = some '^' ∨ '^' ∈ cs
          · rw [if_pos hres, except_map_eq_ok] at h
            obtain ⟨r', _, hfr⟩ := h
            exact absurd hfr (by simp)
          · rw [if_neg hres] at h
            exact absurd h (by simp)

/-- Inversion of the dispatcher: a result output can only come from
parse_result_record. -/
theorem parseGdbOutputChars_result_inv (cs : List Char) (r : GdbResult)
    (h : parseGdbOutputChars cs = .ok (.result r)) :
    parse_result_record cs = .ok r := by
  unfold parseGdbOutputChars at h
  cases hsr : parse_stream_record cs with
  | some s =>
      rw [hsr, Option.elim_some] at h
      split_ifs at h <;> exact absurd h (by simp)
  | none =>
      rw [hsr, Option.elim_none] at h
      by_cases h1 : (cs.isEmpty = true ∨ cs = "(gdb)".toList)
      · rw [if_pos h1] at h
        exact absurd h (by simp)
      · rw [if_neg h1] at h
        by_cases hae : cs.head? = some '*' ∨ cs.head? = some '='
        · rw [if_pos hae, except_map_eq_ok] at h
          obtain ⟨a', _, hfa⟩ := h
          exact absurd hfa (by simp)
        · rw [if_neg hae] at h
          by_cases hres : cs.head? = some '^' ∨ '^' ∈ cs
          · rw [if_pos hres, except_map_eq_ok] at h
            obtain ⟨r', hr', hfr⟩ := h
            injection hfr with hfr'
            rw [← hfr']
            exact hr'
          · rw [if_neg hres] at h
            exact absurd h (by simp)

/-- Any character of a digit-run differs from the dispatch characters. -/
theorem digit_ne_dispatch (c : Char) (h : c.isDigit = true) :
    c ≠ '~' ∧ c ≠ '@' ∧ c ≠ '&' ∧ c ≠ '*' ∧ c ≠ '=' ∧ c ≠ '^' ∧ c ≠ '(' := by
  refine ⟨?_, ?_, ?_, ?_, ?_, ?_, ?_⟩ <;>
    · intro e
      subst e
      exact absurd h (by decide)

/-- parse_result_record on a digit run followed by a caret: the regex
anchors the digits as the token capture and hands the remainder to the
class and results parse. -/
theorem parse_result_record_digits_caret (ds rest : List Char)
    (hdig : ∀ c ∈ ds, c.isDigit = true) :
    parse_result_record (ds ++ '^' :: rest) = parseResultBody ds rest := by
  have htw := takeWhile_append_stop Char.isDigit ds '^' rest hdig (by decide)
  unfold parse_result_record
  rw [htw.1, htw.2]
  simp

/-- parse_result_record on a digit run followed by anything that is not a
caret: the anchored regex fails. -/
theorem parse_result_record_digits_noncaret (ds rest : List Char) (x : Char)
    (hdig : ∀ c ∈ ds, c.isDigit = true) (hxd : x.isDigit = false)
    (hxc : x ≠ '^') :
    parse_result_record (ds ++ x :: rest) = .error "Invalid result record format" := by
  have htw := takeWhile_append_stop Char.isDigit ds x rest hdig hxd
  unfold parse_result_record
  rw [htw.2]
  simp [hxc]

/-- A line of a nonempty digit run followed by a character that is neither
a digit nor a caret is rejected by the dispatcher in parse_gdb_output. -/
theorem digit_prefixed_line_rejected (ds rest : List Char) (x : Char)
    (hne : ds ≠ []) (hdig : ∀ c ∈ ds, c.isDigit = true)
    (hxd : x.isDigit = false) (hxc : x ≠ '^') :
    ∃ msg, parseGdbOutputChars (ds ++ x :: rest) = .error msg := by
  obtain ⟨d, ds', rfl⟩ : ∃ d ds', ds = d :: ds' := by
    cases ds with
    | nil => exact absurd rfl hne
    | cons d ds' => exact ⟨d, ds', rfl⟩
  have hd : d.isDigit = true := hdig d (by simp)
  obtain ⟨hti, hat, ham, hst, heq, hca, hpa⟩ := digit_ne_dispatch d hd
  have hcons : (d :: ds') ++ x :: rest = d :: (ds' ++ x :: rest) := rfl
  rw [hcons]
  unfold parseGdbOutputChars
  rw [if_neg ?hcond]
  case hcond =>
    intro hor
    rcases hor with hor | hor
    · simp at hor
    · rw [show "(gdb)".toList = '(' :: "gdb)".toList from rfl] at hor
      injection hor with e1 _
      exact hpa e1
  rw [parse_stream_record_none d _ hti hat ham, Option.elim_none]
  rw [if_neg ?hasync]
  case hasync =>
    intro hor
    rcases hor with hor | hor <;> · simp at hor; exact absurd hor (by assumption)
  by_cases hres : (d :: (ds' ++ x :: rest)).head? = some '^' ∨
      '^' ∈ d :: (ds' ++ x :: rest)
  · rw [if_pos hres, ← hcons,
      parse_result_record_digits_noncaret (d :: ds') rest x hdig hxd hxc]
    exact ⟨_, rfl⟩
  · rw [if_neg hres]
    exact ⟨_, rfl⟩

/-- C9: the parser never attaches a token to an async record (every async
record it produces has token none), and a line consisting of a decimal
token prefix immediately followed by a star or an equals sign is rejected
with a parse error instead of being parsed as an async record. -/
theorem async_records_have_no_token
    (cs : List Char) (a : AsyncRecord) (ds rest : List Char)
    (hparse : parseGdbOutputChars cs = .ok (.async a))
    (hne : ds ≠ []) (hdig : ∀ c ∈ ds, c.isDigit = true) :
    a.token = none ∧
    (∃ msg, parseGdbOutputChars (ds ++ '*' :: rest) = .error msg) ∧
    (∃ msg, parseGdbOutputChars (ds ++ '=' :: rest) = .error msg) := by
  refine ⟨?_, ?_, ?_⟩
  · exact parse_async_record_token cs a (parseGdbOutputChars_async_inv cs a hparse)
  · exact digit_prefixed_line_rejected ds rest '*' hne hdig (by decide) (by decide)
  · exact digit_prefixed_line_rejected ds rest '=' hne hdig (by decide) (by decide)

/-- C9 witness: a concrete async line parses with token none, and the
token-prefixed async lines 12 star stopped and 12 equals stopped are
rejected. -/
theorem async_records_have_no_token_witness :
    ({ token := none, cls := .running,
       results := [("thread-id", .str "all")] } : AsyncRecord).token = none ∧
    (∃ msg, parseGdbOutputChars ("12*stopped".toList) = .error msg) ∧
    (∃ msg, parseGdbOutputChars ("12=stopped".toList) = .error msg) :=
  async_records_have_no_token
    ("*running,thread-id=\"all\"".toList)
    { token := none, cls := .running, results := [("thread-id", .str "all")] }
    ['1', '2'] ("stopped".toList) rfl (by decide) (by decide)

/-- C5 counterexample: the well-formed status-async line plus download is
not parsed into an async record; the parser returns an error (there is no
plus dispatch arm). -/
theorem status_async_line_rejected :
    parse_gdb_output "+download" = .error "Unknown GDB MI output format" := rfl

/-- C5 amended: a line beginning with a star or an equals sign is
dispatched to the async-record parser (the produced record does not record
an exec versus notify kind), while a line beginning with a plus sign never
yields an async record: it is rejected with a parse error. -/
theorem first_char_dispatch
    (rest : List Char) :
    parseGdbOutputChars ('*' :: rest) =
      (parse_async_record ('*' :: rest)).map .async ∧
    parseGdbOutputChars ('=' :: rest) =
      (parse_async_record ('=' :: rest)).map .async ∧
    (∃ msg, parseGdbOutputChars ('+' :: rest) = .error msg) := by
  refine ⟨?_, ?_, ?_⟩
  · unfold parseGdbOutputChars
    rw [if_neg (by simp), parse_stream_record_none '*' rest
      (by decide) (by decide) (by decide), Option.elim_none, if_pos (by simp)]
  · unfold parseGdbOutputChars
    rw [if_neg (by simp), parse_stream_record_none '=' rest
      (by decide) (by decide) (by decide), Option.elim_none, if_pos (by simp)]
  · unfold parseGdbOutputChars
    rw [if_neg (by simp), parse_stream_record_none '+' rest
      (by decide) (by decide) (by decide), Option.elim_none, if_neg (by simp)]
    by_cases hres : ('+' :: rest).head? = some '^' ∨ '^' ∈ '+' :: rest
    · rw [if_pos hres]
      have hpr := parse_result_record_digits_noncaret [] rest '+'
        (by simp) (by decide) (by decide)
      rw [List.nil_append] at hpr
      rw [hpr]
      exact ⟨_, rfl⟩
    · rw [if_neg hres]
      exact ⟨_, rfl⟩

theorem parseResultBody_token_overflow (ds body : List Char) (r : GdbResult)
    (hne : ds.isEmpty = false) (hover : ¬ digitsVal ds < 2 ^ 32)
    (h : parseResultBody ds body = .ok r) : r.token = none := by
  have htok : tokenOfDigits ds = none := by
    unfold tokenOfDigits
    rw [if_neg (by simp [hne]), if_neg hover]
  unfold parseResultBody at h
  split at h
  · exact absurd h (by simp)
  · split at h
    · injection h with h'
      rw [← h']
      exact htok
    · rw [except_map_eq_ok] at h
      obtain ⟨res, _, hf⟩ := h
      rw [← hf]
      exact htok

/-- C10: a result-record line whose leading decimal token does not fit in
u32 parses to a record with token none, and the reader therefore
broadcasts it as a Result event, leaving the pending table untouched and
delivering nothing to any pending command. -/
theorem oversized_token_dropped_and_broadcast
    (ds rest : List Char) (pending : PendingTable) (r : GdbResult)
    (hne : ds ≠ []) (hdig : ∀ c ∈ ds, c.isDigit = true)
    (hover : 2 ^ 32 ≤ digitsVal ds) (hnl : '\n' ∉ rest)
    (hparse : parseGdbOutputChars (ds ++ '^' :: rest) = .ok (.result r)) :
    r.token = none ∧
    process_gdb_output (ds ++ '^' :: rest) pending = ⟨pending, [], [.result r]⟩ := by
  have htok : r.token = none := by
    have hrr := parseGdbOutputChars_result_inv (ds ++ '^' :: rest) r hparse
    rw [parse_result_record_digits_caret ds rest hdig] at hrr
    exact parseResultBody_token_overflow ds rest r
      (by cases ds with | nil => exact absurd rfl hne | cons a b => rfl)
      (by omega) hrr
  refine ⟨htok, ?_⟩
  simp [process_gdb_output, hparse, htok]

/-- C10 witness: the line 4294967296 caret done parses with token none and
is broadcast as a Result event, leaving the pending table unchanged. -/
theorem oversized_token_dropped_and_broadcast_witness :
    process_gdb_output ("4294967296^done".toList) [(3, 4)] =
      ⟨[(3, 4)], [], [.result { token := none, cls := .done, results := [] }]⟩ :=
  (oversized_token_dropped_and_broadcast
    ("4294967296".toList) ("done".toList) [(3, 4)]
    { token := none, cls := .done, results := [] }
    (by decide) (by decide) (by decide) (by decide) rfl).2

end Katori
